import Mathlib

/-!
Shallow embedding of the FreqForm audio engine core
(`src/core/transport/src/clock.rs`, `src/core/audio_engine/src/clip/mod.rs`,
`src/core/audio_engine/src/track/{timeline,audio,gainpan,constant,wav}.rs`,
`src/core/audio_engine/src/scheduler/mod.rs`).

Conventions of the embedding:
* `f32`/`f64` sample and time values are modelled as exact rationals (`ℚ`);
  all arithmetic the source performs on them is kept structurally identical.
* `u64`/`usize` are modelled as `ℕ`; the source's `saturating_sub` is `Nat`
  truncated subtraction, and plain `u64` subtraction is also modelled by `Nat`
  subtraction (the source only evaluates it on inputs where it cannot
  underflow, e.g. 1-based bar/beat/tick coordinates).
* `f64::round` on the nonnegative values arising here agrees with Mathlib's
  `round : ℚ → ℤ` (round half away from zero = round half up for
  nonnegative arguments), followed by `Int.toNat` for the `as u64` cast.
* The transcendental equal-power fade curves (`sin(π/2·t)`, `cos(π/2·t)`)
  have no exact rational counterpart; they are carried as an abstract
  curve-shape parameter `EPShape`, and every theorem quantifies over it.
-/

namespace FreqForm

/-! ## Tempo clock (`src/core/transport/src/clock.rs`) -/

/-- `TimeSignature` from `clock.rs`. -/
structure TimeSignature where
  beats_per_bar : ℕ
  beat_unit : ℕ
deriving DecidableEq

/-- `TickResolution` from `src/core/transport/src/resolution.rs`. -/
inductive TickResolution where
  | Quarter
  | Eighth
  | Sixteenth
  | PPQN (n : ℕ)
deriving DecidableEq

/-- `TickResolution::ticks_per_beat`. -/
def TickResolution.ticks_per_beat : TickResolution → ℕ
  | .Quarter => 480
  | .Eighth => 240
  | .Sixteenth => 120
  | .PPQN n => n

/-- `TempoClock` from `clock.rs`; `sample_position: f64` is an exact `ℚ`. -/
structure TempoClock where
  bpm : ℚ
  samples_per_tick : ℚ
  sample_position : ℚ
  tick_counter : ℕ
  running : Bool
  time_signature : TimeSignature
  ticks_per_beat : ℕ
  sample_rate : ℚ
deriving DecidableEq

/-- `TempoClock::compute_samples_per_tick`. -/
def TempoClock.compute_samples_per_tick (bpm sample_rate : ℚ) (ticks_per_beat : ℕ) : ℚ :=
  let seconds_per_beat := 60 / bpm
  let seconds_per_tick := seconds_per_beat / (ticks_per_beat : ℚ)
  sample_rate * seconds_per_tick

/-- `TempoClock::with_signature`; note the source constructs the clock with
`running: true`. -/
def TempoClock.with_signature (bpm sample_rate : ℚ) (resolution : TickResolution)
    (time_signature : TimeSignature) : TempoClock :=
  let tpb := resolution.ticks_per_beat
  { bpm := bpm
    samples_per_tick := TempoClock.compute_samples_per_tick bpm sample_rate tpb
    sample_position := 0
    tick_counter := 0
    running := true
    time_signature := time_signature
    ticks_per_beat := tpb
    sample_rate := sample_rate }

/-- `TempoClock::new`: a 4/4 default time signature. -/
def TempoClock.new (bpm sample_rate : ℚ) (resolution : TickResolution) : TempoClock :=
  TempoClock.with_signature bpm sample_rate resolution ⟨4, 4⟩

/-- The `while sample_position >= samples_per_tick` loop body of
`TempoClock::advance_by`, made structurally recursive on a fuel bound.
`advance_by` always supplies fuel strictly larger than the number of loop
iterations the source performs (see `tickLoopFuel_spec`), so the `0` case is
unreachable there.  The `0 < spt` conjunct guards the configuration in which
the source's loop would not terminate. -/
def tickLoopFuel : ℕ → ℚ → ℚ → ℕ → Bool → ℚ × ℕ × Bool
  | 0, _, pos, ticks, emitted => (pos, ticks, emitted)
  | fuel + 1, spt, pos, ticks, emitted =>
    if 0 < spt ∧ spt ≤ pos then
      tickLoopFuel fuel spt (pos - spt) (ticks + 1) true
    else
      (pos, ticks, emitted)

/-- `TempoClock::advance_by`: if not running, a no-op returning `false`;
otherwise add `samples` to `sample_position` and run the tick-emission loop. -/
def TempoClock.advance_by (c : TempoClock) (samples : ℕ) : TempoClock × Bool :=
  if c.running = false then (c, false)
  else
    let pos := c.sample_position + (samples : ℚ)
    let fuel := (Int.toNat ⌈pos / c.samples_per_tick⌉) + 1
    let res := tickLoopFuel fuel c.samples_per_tick pos c.tick_counter false
    ({ c with sample_position := res.1, tick_counter := res.2.1 }, res.2.2)

/-- `TempoClock::current_tick`. -/
def TempoClock.current_tick (c : TempoClock) : ℕ := c.tick_counter

/-- `TempoClock::tick_phase`. -/
def TempoClock.tick_phase (c : TempoClock) : ℚ := c.sample_position / c.samples_per_tick

/-- `TempoClock::start`. -/
def TempoClock.start (c : TempoClock) : TempoClock := { c with running := true }

/-- `TempoClock::stop`. -/
def TempoClock.stop (c : TempoClock) : TempoClock := { c with running := false }

/-- `TempoClock::reset`. -/
def TempoClock.reset (c : TempoClock) : TempoClock :=
  { c with sample_position := 0, tick_counter := 0 }

/-- `TempoClock::bar_beat_tick`. -/
def TempoClock.bar_beat_tick (c : TempoClock) : ℕ × ℕ × ℕ :=
  let ticks_per_bar := c.ticks_per_beat * c.time_signature.beats_per_bar
  let bar := c.tick_counter / ticks_per_bar + 1
  let ticks_into_bar := c.tick_counter % ticks_per_bar
  let beat := ticks_into_bar / c.ticks_per_beat + 1
  let tick := ticks_into_bar % c.ticks_per_beat + 1
  (bar, beat, tick)

/-! ## Clips and fades (`src/core/audio_engine/src/clip/`) -/

/-- `FadeCurve` from `clip/fades.rs`. -/
inductive FadeCurve where
  | Linear
  | EqualPower
deriving DecidableEq

/-- `Fade` from `clip/fades.rs`. -/
structure Fade where
  length_frames : ℕ
  curve : FadeCurve
deriving DecidableEq

/-- `Fade::none`. -/
def Fade.noFade : Fade := { length_frames := 0, curve := .Linear }

/-- `ClipTiming` from `clip/mod.rs`. -/
structure ClipTiming where
  start_frame : ℕ
  duration_frames : ℕ
deriving DecidableEq

/-- `AudioClip` from `clip/mod.rs`.  The shared `Arc<dyn ClipSource>` is
modelled by the function the render path extracts from it:
`read_samples(f, 1).get(0).copied().unwrap_or((0.0, 0.0))`, i.e. one stereo
frame per source-frame index. -/
structure AudioClip where
  source : ℕ → ℚ × ℚ
  start_offset : ℕ
  looping : Bool
  gain : ℚ
  pan : ℚ

/-- `ClipKind` from `clip/mod.rs`. -/
inductive ClipKind where
  | Audio (c : AudioClip)

/-- `Clip` from `clip/mod.rs` (the UUID id is an opaque string). -/
structure Clip where
  id : String
  timing : ClipTiming
  kind : ClipKind
  fade_in : Fade
  fade_out : Fade

/-- `Clip::is_active_at`. -/
def Clip.is_active_at (c : Clip) (frame : ℕ) : Bool :=
  decide (c.timing.start_frame ≤ frame) &&
    decide (frame < c.timing.start_frame + c.timing.duration_frames)

/-- `Clip::ends_at`. -/
def Clip.ends_at (c : Clip) : ℕ :=
  c.timing.start_frame + c.timing.duration_frames

/-- `Clip::clamp_fades`: on violation, rescale `fade_in` by
`duration / total` (flooring the f64 product) and give `fade_out` the rest. -/
def Clip.clamp_fades (c : Clip) : Clip :=
  let len := c.timing.duration_frames
  if len < c.fade_in.length_frames + c.fade_out.length_frames then
    let total := c.fade_in.length_frames + c.fade_out.length_frames
    if 0 < total then
      let scale : ℚ := (len : ℚ) / (total : ℚ)
      let fi := Int.toNat ⌊(c.fade_in.length_frames : ℚ) * scale⌋
      { c with
        fade_in := { c.fade_in with length_frames := fi }
        fade_out := { c.fade_out with length_frames := len - fi } }
    else
      { c with
        fade_in := { c.fade_in with length_frames := 0 }
        fade_out := { c.fade_out with length_frames := 0 } }
  else c

/-- `Clip::set_fade_in`. -/
def Clip.set_fade_in (c : Clip) (length_frames : ℕ) (curve : FadeCurve) : Clip :=
  Clip.clamp_fades { c with fade_in := { length_frames := length_frames, curve := curve } }

/-- `Clip::set_fade_out`. -/
def Clip.set_fade_out (c : Clip) (length_frames : ℕ) (curve : FadeCurve) : Clip :=
  Clip.clamp_fades { c with fade_out := { length_frames := length_frames, curve := curve } }

/-- `Clip::trim`. -/
def Clip.trim (c : Clip) (new_duration : ℕ) : Clip :=
  Clip.clamp_fades { c with timing := { c.timing with duration_frames := new_duration } }

/-! ## Timeline rendering (`src/core/audio_engine/src/track/timeline.rs`) -/

/-- Abstract shape of the equal-power fade curves: `sinHalf t` models
`f32::sin(FRAC_PI_2 * t)` and `cosHalf t` models `f32::cos(FRAC_PI_2 * t)`.
Rational arithmetic cannot represent these transcendental values, so every
theorem about the render path quantifies over this parameter. -/
structure EPShape where
  sinHalf : ℚ → ℚ
  cosHalf : ℚ → ℚ

/-- Rust `clamp` on ordered values. -/
def clampQ (x lo hi : ℚ) : ℚ := max lo (min x hi)

/-- `fade_gain_equal_power_in` from `timeline.rs`. -/
def fade_gain_equal_power_in (ep : EPShape) (i n : ℕ) : ℚ :=
  if n = 0 then 1
  else ep.sinHalf ((i : ℚ) / (n : ℚ))

/-- `fade_gain_equal_power_out` from `timeline.rs`. -/
def fade_gain_equal_power_out (ep : EPShape) (i_from_end n : ℕ) : ℚ :=
  if n = 0 then 1
  else ep.cosHalf (clampQ (1 - (i_from_end : ℚ) / (n : ℚ)) 0 1)

/-- `fade_gain_linear_in` from `timeline.rs`. -/
def fade_gain_linear_in (i n : ℕ) : ℚ :=
  if n = 0 then 1 else (i : ℚ) / (n : ℚ)

/-- `fade_gain_linear_out` from `timeline.rs`. -/
def fade_gain_linear_out (i_from_end n : ℕ) : ℚ :=
  if n = 0 then 1 else (i_from_end : ℚ) / (n : ℚ)

/-- `compute_fade_gain` from `timeline.rs`. -/
def compute_fade_gain (ep : EPShape) (local_frame clip_len : ℕ)
    (fade_in fade_out : Fade) : ℚ :=
  let g : ℚ := 1
  let g :=
    if 0 < fade_in.length_frames ∧ local_frame < fade_in.length_frames then
      match fade_in.curve with
      | .Linear => fade_gain_linear_in local_frame fade_in.length_frames
      | .EqualPower => fade_gain_equal_power_in ep local_frame fade_in.length_frames
    else g
  if 0 < fade_out.length_frames then
    let out_start := clip_len - fade_out.length_frames
    if out_start ≤ local_frame then
      let from_end := (clip_len - 1) - local_frame
      let go :=
        match fade_out.curve with
        | .Linear => fade_gain_linear_out from_end fade_out.length_frames
        | .EqualPower => fade_gain_equal_power_out ep from_end fade_out.length_frames
      min g go
    else g
  else g

/-- `apply_gain_pan` from `timeline.rs` (the clip-level linear pan law:
centre pan applies factor `1` on both channels). -/
def apply_gain_pan (l r gain pan : ℚ) : ℚ × ℚ :=
  let gain := clampQ gain 0 4
  let pan := clampQ pan (-1) 1
  let pan_l := if pan < 0 then 1 else 1 - pan
  let pan_r := if 0 < pan then 1 else 1 + pan
  (l * gain * pan_l, r * gain * pan_r)

/-- One iteration of the inner `for i in 0..frame_count` loop of
`TimelineTrack::render_audio`: the stereo contribution the given clip adds at
global frame `global_frame` (`(0, 0)` when one of the source's `continue`
branches fires). -/
def clipContribution (ep : EPShape) (clip : Clip) (global_frame : ℕ) : ℚ × ℚ :=
  match clip.kind with
  | .Audio audio_clip =>
    let offset := audio_clip.start_offset
    let gain := audio_clip.gain
    let pan := audio_clip.pan
    let should_loop := audio_clip.looping
    let clip_start := clip.timing.start_frame
    let clip_end := clip.ends_at
    let clip_length := clip.timing.duration_frames
    if global_frame < clip_start then (0, 0)
    else if should_loop = false ∧ clip_end ≤ global_frame then (0, 0)
    else
      let clip_relative := global_frame - clip_start
      let local_frame := if should_loop then clip_relative % clip_length else clip_relative
      let source_frame := offset + local_frame
      let relative_time_frame := clip_start + local_frame
      if clip.is_active_at relative_time_frame = false then (0, 0)
      else
        let (l, r) := audio_clip.source source_frame
        let fg := compute_fade_gain ep local_frame clip_length clip.fade_in clip.fade_out
        apply_gain_pan (l * fg) (r * fg) gain pan

/-- Componentwise stereo sum (`output_buffer[i].0 += l; output_buffer[i].1 += r`). -/
def addPair (a b : ℚ × ℚ) : ℚ × ℚ := (a.1 + b.1, a.2 + b.2)

/-- The per-clip pass of `TimelineTrack::render_audio`: add the clip's
contribution into `output_buffer[i]` for every `i < frame_count`
(`i0` is the index of the buffer's head within the original buffer). -/
def renderClipIntoBuffer (ep : EPShape) (clip : Clip) (start_frame frame_count : ℕ) :
    List (ℚ × ℚ) → ℕ → List (ℚ × ℚ)
  | [], _ => []
  | lr :: rest, i0 =>
    (if i0 < frame_count then addPair lr (clipContribution ep clip (start_frame + i0)) else lr)
      :: renderClipIntoBuffer ep clip start_frame frame_count rest (i0 + 1)

/-- `TimelineTrack` from `track/timeline.rs`. -/
structure TimelineTrack where
  id : String
  name : String
  clips : List Clip

/-- `TimelineTrack::render_audio`: every clip sums its active frames into the
shared output buffer. -/
def TimelineTrack.render_audio (ep : EPShape) (t : TimelineTrack)
    (start_frame : ℕ) (frame_count : ℕ) (output_buffer : List (ℚ × ℚ)) : List (ℚ × ℚ) :=
  t.clips.foldl (fun buf clip => renderClipIntoBuffer ep clip start_frame frame_count buf 0)
    output_buffer

/-! ## Tracks (`src/core/audio_engine/src/track/`) -/

/-- `ParameterChange` from `scheduler/command.rs`. -/
inductive ParameterChange where
  | SetGain (v : ℚ)
  | SetPan (v : ℚ)

/-- The closed set of `dyn Track` implementations the engine constructs
(`constant.rs`, `wav.rs`, `audio.rs`, `gainpan.rs`); each variant carries the
mutable state of the corresponding Rust struct. -/
inductive Track where
  | constant (left right : ℚ)
  | wav (id name : String) (samples : List (ℚ × ℚ)) (position : ℕ)
  | audio (id name : String) (timeline : TimelineTrack) (current_frame : ℕ) (playing : Bool)
  | gainpan (id : String) (inner : Track) (gain pan : ℚ)

/-- `Track::id`.  `ConstantTrack::id` draws a fresh UUID on every call in the
source; the model stands in an opaque placeholder string for it (no command in
any theorem below targets it). -/
def Track.trackId : Track → String
  | .constant _ _ => "constant-track-fresh-uuid"
  | .wav id _ _ _ => id
  | .audio id _ _ _ _ => id
  | .gainpan id _ _ _ => id

/-- `Track::fill_next_samples` for each variant, mutating the track state and
the buffer handed in (the buffer argument carries whatever the caller's slice
currently holds, since `AudioTrack` and `WavTrack` do not overwrite every
element):
* `ConstantTrack` overwrites every slot with its constant frame;
* `WavTrack` copies `samples[position..end]` into the leading slots and leaves
  the rest of the buffer untouched;
* `AudioTrack` zero-fills when not playing, otherwise *adds* the timeline
  render into the existing buffer contents and advances its frame counter;
* `GainPanTrack` fills via its inner track and scales with the
  `(1 ± clamp(pan)) * 0.5` pan law. -/
def Track.fill_next_samples (ep : EPShape) : Track → List (ℚ × ℚ) → Track × List (ℚ × ℚ)
  | .constant l r, buf =>
    (.constant l r, buf.map (fun _ => (l, r)))
  | .wav id name samples position, buf =>
    let e := min (position + buf.length) samples.length
    let newbuf := buf.mapIdx (fun i lr =>
      if position + i < e then samples.getD (position + i) (0, 0) else lr)
    (.wav id name samples e, newbuf)
  | .audio id name timeline current_frame playing, buf =>
    if playing = false then
      (.audio id name timeline current_frame playing, buf.map (fun _ => (0, 0)))
    else
      let newbuf := timeline.render_audio ep current_frame buf.length buf
      (.audio id name timeline (current_frame + buf.length) playing, newbuf)
  | .gainpan id inner gain pan, buf =>
    let pan_l := (1 - clampQ pan (-1) 1) * (1 / 2)
    let pan_r := (1 + clampQ pan (-1) 1) * (1 / 2)
    let res := inner.fill_next_samples ep buf
    (.gainpan id res.1 gain pan,
      res.2.map (fun lr => (lr.1 * gain * pan_l, lr.2 * gain * pan_r)))

/-- `Track::apply_param_change`: only `GainPanTrack` overrides the trait's
no-op default; on an id mismatch it delegates to its inner track. -/
def Track.apply_param_change : Track → String → ParameterChange → Track
  | .gainpan id inner gain pan, target, change =>
    if id ≠ target then .gainpan id (inner.apply_param_change target change) gain pan
    else
      match change with
      | .SetGain v => .gainpan id inner v pan
      | .SetPan v => .gainpan id inner gain v
  | t, _, _ => t

/-- `Track::reset` per variant (`ConstantTrack` keeps the trait's no-op
default). -/
def Track.resetTrack : Track → Track
  | .constant l r => .constant l r
  | .wav id name samples _ => .wav id name samples 0
  | .audio id name timeline _ _ => .audio id name timeline 0 true
  | .gainpan id inner gain pan => .gainpan id inner.resetTrack gain pan

/-! ## Scheduler (`src/core/audio_engine/src/scheduler/mod.rs`) -/

/-- `TransportState` from `src/core/transport`. -/
inductive TransportState where
  | Stopped
  | Paused
  | Playing
deriving DecidableEq

/-- `LoopOptions` (the `{bar, beat, tick}` payload of `SetLoop`). -/
structure LoopOptions where
  bar : ℕ
  beat : ℕ
  tick : ℕ
deriving DecidableEq

/-- `LoopPoints` from `scheduler/mod.rs`. -/
structure LoopPoints where
  start_bar : ℕ
  start_beat : ℕ
  start_tick : ℕ
  end_bar : ℕ
  end_beat : ℕ
  end_tick : ℕ
deriving DecidableEq

/-- `ScheduledTrack` from `scheduler/track.rs`. -/
structure ScheduledTrack where
  track : Track
  start_frame : ℕ

/-- `SchedulerCommand` as dispatched by `Scheduler::process_command`. -/
inductive SchedulerCommand where
  | ScheduleTrack (track : Track) (start_frame : ℕ)
  | ParamChange (target_id : String) (change : ParameterChange)
  | StopTrack (target_id : String)
  | RestartTrack (target_id : String)
  | SetTempo (bpm : ℚ) (resolution : TickResolution)
  | SetLoop (enabled : Bool) (startOpts stopOpts : LoopOptions)
  | Play
  | Pause
  | Stop

/-- `Scheduler` state from `scheduler/mod.rs`.  The `BinaryHeap<ScheduledTrack>`
(a min-heap on `start_frame` via the reversed `Ord`) is modelled as a list kept
sorted by `start_frame`, ties kept in insertion order — which is the pop order
the Rust heap exhibits on the concrete scenarios evaluated below. -/
structure Scheduler where
  scheduled : List ScheduledTrack
  active_tracks : List Track
  current_frame : ℕ
  tempo_clock : TempoClock
  sample_rate : ℚ
  looping_enabled : Bool
  loop_points : Option LoopPoints
  loop_start_frame : ℕ
  loop_end_frame : ℕ
  transport_state : TransportState

/-- `Scheduler::new`. -/
def Scheduler.new (tempo_clock : TempoClock) : Scheduler :=
  { scheduled := []
    active_tracks := []
    current_frame := 0
    sample_rate := tempo_clock.sample_rate
    tempo_clock := tempo_clock
    looping_enabled := false
    loop_points := none
    loop_start_frame := 0
    loop_end_frame := 0
    transport_state := .Stopped }

/-- `BinaryHeap::push` under the model's sorted-list representation: insert
after every element with a smaller-or-equal `start_frame`. -/
def heapPush : List ScheduledTrack → ScheduledTrack → List ScheduledTrack
  | [], st => [st]
  | x :: xs, st =>
    if x.start_frame ≤ st.start_frame then x :: heapPush xs st else st :: x :: xs

/-- `Scheduler::schedule`. -/
def Scheduler.schedule (s : Scheduler) (track : Track) (start_frame : ℕ) : Scheduler :=
  { s with scheduled := heapPush s.scheduled { track := track, start_frame := start_frame } }

/-- `Scheduler::stop_track`: retain active tracks whose id differs. -/
def Scheduler.stop_track (s : Scheduler) (target_id : String) : Scheduler :=
  { s with active_tracks := s.active_tracks.filter (fun t => t.trackId ≠ target_id) }

/-- The `RestartTrack` branch: reset the first active track whose id matches. -/
def resetFirstMatch : List Track → String → List Track
  | [], _ => []
  | t :: ts, target =>
    if t.trackId = target then t.resetTrack :: ts else t :: resetFirstMatch ts target

/-- `Scheduler::bbt_to_tick_count`: 1-based bar/beat/tick to a total tick
count (u64 arithmetic; the `- 1` is `Nat` subtraction, matching u64 on the
1-based coordinates the command carries). -/
def Scheduler.bbt_to_tick_count (s : Scheduler) (lp : LoopPoints) (isStart : Bool) : ℕ :=
  let (bar, beat, tick) :=
    if isStart then (lp.start_bar, lp.start_beat, lp.start_tick)
    else (lp.end_bar, lp.end_beat, lp.end_tick)
  let ticks_per_beat := s.tempo_clock.ticks_per_beat
  let beats_per_bar := s.tempo_clock.time_signature.beats_per_bar
  (bar - 1) * beats_per_bar * ticks_per_beat + (beat - 1) * ticks_per_beat + (tick - 1)

/-- `Scheduler::process_command`.  `round(x) as u64` on the nonnegative frame
values is `(round x).toNat`. -/
def Scheduler.process_command (s : Scheduler) : SchedulerCommand → Scheduler
  | .ScheduleTrack track start_frame => s.schedule track start_frame
  | .ParamChange target_id change =>
    { s with active_tracks := s.active_tracks.map (fun t => t.apply_param_change target_id change) }
  | .StopTrack target_id => s.stop_track target_id
  | .RestartTrack target_id =>
    { s with active_tracks := resetFirstMatch s.active_tracks target_id }
  | .SetTempo bpm resolution =>
    { s with tempo_clock := TempoClock.new bpm s.sample_rate resolution }
  | .SetLoop enabled startOpts stopOpts =>
    let s := { s with looping_enabled := enabled }
    if enabled then
      let lp : LoopPoints :=
        { start_bar := startOpts.bar, start_beat := startOpts.beat, start_tick := startOpts.tick
          end_bar := stopOpts.bar, end_beat := stopOpts.beat, end_tick := stopOpts.tick }
      let start_ticks := s.bbt_to_tick_count lp true
      let end_ticks := s.bbt_to_tick_count lp false
      let start_frame := Int.toNat (round ((start_ticks : ℚ) * s.tempo_clock.samples_per_tick))
      let end_frame := Int.toNat (round ((end_ticks : ℚ) * s.tempo_clock.samples_per_tick))
      { s with loop_points := some lp, loop_start_frame := start_frame, loop_end_frame := end_frame }
    else
      { s with loop_points := none }
  | .Play =>
    { s with transport_state := .Playing, tempo_clock := s.tempo_clock.start }
  | .Pause =>
    { s with transport_state := .Paused }
  | .Stop =>
    { s with transport_state := .Stopped, current_frame := 0
             tempo_clock := s.tempo_clock.reset
             active_tracks := [] }

/-- The `while let Ok(cmd) = self.automation_events.pop()` drain at the top of
`next_samples`; the list is the queue content in enqueue order. -/
def Scheduler.drain (s : Scheduler) (cmds : List SchedulerCommand) : Scheduler :=
  cmds.foldl Scheduler.process_command s

/-- The promotion loop: `while` the heap's minimum has
`start_frame ≤ current_frame`, pop it and push its track onto the active list. -/
def promoteLoop : List ScheduledTrack → List Track → ℕ → List ScheduledTrack × List Track
  | [], active, _ => ([], active)
  | x :: xs, active, cf =>
    if x.start_frame ≤ cf then promoteLoop xs (active ++ [x.track]) cf
    else (x :: xs, active)

/-- The promotion stage of `Scheduler::next_samples`. -/
def Scheduler.promote_pending (s : Scheduler) : Scheduler :=
  { s with scheduled := (promoteLoop s.scheduled s.active_tracks s.current_frame).1
           active_tracks := (promoteLoop s.scheduled s.active_tracks s.current_frame).2 }

/-- The mixing loop of `next_samples`: each active track fills the *shared*
`tmp_buffer` (which is not cleared between tracks, exactly as in the source)
and the result is summed into the output buffer. -/
def mixLoop (ep : EPShape) :
    List Track → List (ℚ × ℚ) → List (ℚ × ℚ) → List Track × List (ℚ × ℚ) × List (ℚ × ℚ)
  | [], tmp, buf => ([], tmp, buf)
  | t :: ts, tmp, buf =>
    let (t', tmp') := t.fill_next_samples ep tmp
    let buf' := List.zipWith addPair buf tmp'
    let (ts', tmp'', buf'') := mixLoop ep ts tmp' buf'
    (t' :: ts', tmp'', buf'')

/-- The mixing stage of `next_samples`: a fresh zeroed `tmp_buffer`, summation
into the (still zeroed) output buffer. -/
def Scheduler.mix_active (ep : EPShape) (s : Scheduler) (frame_size : ℕ) :
    Scheduler × List (ℚ × ℚ) :=
  let tmp_buffer : List (ℚ × ℚ) := List.replicate frame_size (0, 0)
  let buffer : List (ℚ × ℚ) := List.replicate frame_size (0, 0)
  let res := mixLoop ep s.active_tracks tmp_buffer buffer
  ({ s with active_tracks := res.1 }, res.2.2)

/-- The clock/frame advancement stage of `next_samples`. -/
def Scheduler.advance_clock_and_frame (s : Scheduler) (frame_size : ℕ) : Scheduler :=
  { s with tempo_clock := (s.tempo_clock.advance_by frame_size).1
           current_frame := s.current_frame + frame_size }

/-- The loop-wrap stage of `next_samples`: if looping is enabled and
`current_frame >= loop_end_frame`, rewind to `loop_start_frame`, reset the
tempo clock and re-advance it by the (new) `current_frame`. -/
def Scheduler.wrap_loop (s : Scheduler) : Scheduler :=
  if s.looping_enabled = true ∧ s.loop_end_frame ≤ s.current_frame then
    let s' := { s with current_frame := s.loop_start_frame }
    { s' with tempo_clock := ((s'.tempo_clock.reset).advance_by s'.current_frame).1 }
  else s

/-- `Scheduler::next_samples`: drain commands, return silence unless Playing,
promote pending tracks, mix the active tracks, advance clock and frame, wrap
the loop. -/
def Scheduler.next_samples (ep : EPShape) (s : Scheduler) (cmds : List SchedulerCommand)
    (frame_size : ℕ) : Scheduler × List (ℚ × ℚ) :=
  let buffer : List (ℚ × ℚ) := List.replicate frame_size (0, 0)
  let s1 := s.drain cmds
  if s1.transport_state ≠ TransportState.Playing then (s1, buffer)
  else
    let s2 := s1.promote_pending
    let mixed := s2.mix_active ep frame_size
    let s3 := mixed.1.advance_clock_and_frame frame_size
    (s3.wrap_loop, mixed.2)

/-- `Scheduler::current_tick`. -/
def Scheduler.current_tick (s : Scheduler) : ℕ := s.tempo_clock.current_tick

/-! ## Spec-side formulations used by refinement claims -/

/-- The spec's BBT-to-ticks formula from §4.4:
`(bar-1)*ticks_per_bar + (beat-1)*ticks_per_beat + (tick-1)` with
`ticks_per_bar = ticks_per_beat * beats_per_bar`. -/
def spec_bbt_total_ticks (ticks_per_beat beats_per_bar : ℕ) (b : LoopOptions) : ℕ :=
  let ticks_per_bar := ticks_per_beat * beats_per_bar
  (b.bar - 1) * ticks_per_bar + (b.beat - 1) * ticks_per_beat + (b.tick - 1)

/-! ## Concrete instances used by witnesses and counterexamples -/

/-- A concrete equal-power curve interpretation (the theorems below hold for
every interpretation). -/
def epZero : EPShape := { sinHalf := fun _ => 0, cosHalf := fun _ => 0 }

/-- The clock of the source's test fixture: 120 BPM, 44_100 Hz, Sixteenth
(`samples_per_tick = 183.75`). -/
def clk44 : TempoClock := TempoClock.new 120 44100 .Sixteenth

/-- A tiny clock with `samples_per_tick = 4` for tick arithmetic witnesses. -/
def clkPPQN : TempoClock := TempoClock.new 60 4 (.PPQN 1)

/-- A timeline with no clips. -/
def emptyTimeline : TimelineTrack := { id := "tl", name := "tl", clips := [] }

/-- `ConstantTrack::new(1.0, 1.0)`. -/
def constOne : Track := .constant 1 1

/-- A freshly constructed `AudioTrack` holding no clips (playing, frame 0). -/
def emptyAudio : Track := .audio "audio-b" "audio-b" emptyTimeline 0 true

/-- A scheduler in the Playing state with the test-fixture clock. -/
def playingSched : Scheduler :=
  { Scheduler.new clk44 with transport_state := .Playing }

/-- Playing scheduler with `ConstantTrack` scheduled before the empty
`AudioTrack`, both at frame 0. -/
def schedAB : Scheduler :=
  { playingSched with
      scheduled := heapPush (heapPush [] { track := constOne, start_frame := 0 })
        { track := emptyAudio, start_frame := 0 } }

/-- The same two tracks scheduled in the opposite order. -/
def schedBA : Scheduler :=
  { playingSched with
      scheduled := heapPush (heapPush [] { track := emptyAudio, start_frame := 0 })
        { track := constOne, start_frame := 0 } }

/-- A scheduler holding one pending (not yet active) track at frame 5. -/
def schedPending : Scheduler :=
  { playingSched with scheduled := [{ track := constOne, start_frame := 5 }] }

/-- A playing scheduler mid-way through an enabled loop region `[0, 10)`. -/
def schedMidLoop : Scheduler :=
  { playingSched with looping_enabled := true, loop_start_frame := 0, loop_end_frame := 10
                      current_frame := 5 }

/-- A playing scheduler at frame 0 with an enabled loop region `[0, 10)`. -/
def schedAtLoopStart : Scheduler :=
  { playingSched with looping_enabled := true, loop_start_frame := 0, loop_end_frame := 10 }

/-- A stopped scheduler. -/
def schedStopped : Scheduler := Scheduler.new clk44

/-- A constant-one sample source (the test suite's `ConstOneSource`). -/
def srcOne : ℕ → ℚ × ℚ := fun _ => (1, 1)

/-- A 100-frame clip with no fades yet. -/
def clipNoFade : Clip :=
  { id := "clip-0", timing := { start_frame := 0, duration_frames := 100 }
    kind := .Audio { source := srcOne, start_offset := 0, looping := false, gain := 1, pan := 0 }
    fade_in := Fade.noFade, fade_out := Fade.noFade }

/-- `clipNoFade` after `set_fade_out(80, Linear)`. -/
def clipFadeOut80 : Clip := clipNoFade.set_fade_out 80 .Linear

/-- The audio payload of `clipFuture`. -/
def acFuture : AudioClip :=
  { source := srcOne, start_offset := 0, looping := false, gain := 1, pan := 0 }

/-- A non-looping 3-frame clip positioned at frame 5. -/
def clipFuture : Clip :=
  { id := "clip-2", timing := { start_frame := 5, duration_frames := 3 }
    kind := .Audio acFuture
    fade_in := Fade.noFade, fade_out := Fade.noFade }

/-- A three-frame buffer with distinctive contents. -/
def bufThree : List (ℚ × ℚ) := [(3, 4), (5, 6), (7, 8)]

/-- Loop endpoints `1.1.1` and `1.2.1` (the spec's loop-wrap scenario). -/
def loopStartOpt : LoopOptions := { bar := 1, beat := 1, tick := 1 }

/-- End point of the spec's loop-wrap scenario. -/
def loopEndOpt : LoopOptions := { bar := 1, beat := 2, tick := 1 }

/-! ## Helper lemmas -/

/-- Closed form of the tick-emission loop: with positive `spt`, nonnegative
starting position and sufficient fuel, the loop runs exactly
`⌊pos / spt⌋` iterations. -/
theorem tickLoopFuel_spec (spt : ℚ) (hspt : 0 < spt) :
    ∀ (fuel : ℕ) (pos : ℚ) (t : ℕ) (e : Bool), 0 ≤ pos →
      (Int.toNat ⌊pos / spt⌋) < fuel →
      tickLoopFuel fuel spt pos t e =
        (pos - (⌊pos / spt⌋ : ℚ) * spt, t + Int.toNat ⌊pos / spt⌋,
          e || decide (spt ≤ pos)) := by
  intro fuel
  induction fuel with
  | zero => intro pos t e _ hfuel; omega
  | succ fuel ih =>
    intro pos t e hpos hfuel
    by_cases hle : spt ≤ pos
    · have hone : (1 : ℚ) ≤ pos / spt := (one_le_div hspt).mpr hle
      have hfq : (1 : ℤ) ≤ ⌊pos / spt⌋ := by
        have := Int.le_floor.mpr (by exact_mod_cast hone)
        simpa using this
      have hfloor : ⌊(pos - spt) / spt⌋ = ⌊pos / spt⌋ - 1 := by
        rw [sub_div, div_self (ne_of_gt hspt)]
        exact Int.floor_sub_one _
      have hpos' : 0 ≤ pos - spt := sub_nonneg.mpr hle
      have hfuel' : Int.toNat ⌊(pos - spt) / spt⌋ < fuel := by
        rw [hfloor]; omega
      have hrec := ih (pos - spt) (t + 1) true hpos' hfuel'
      simp only [tickLoopFuel, if_pos (And.intro hspt hle), hrec, hfloor]
      refine Prod.ext ?_ (Prod.ext ?_ ?_)
      · push_cast
        ring
      · simp only
        omega
      · simp [hle]
    · have hfloor0 : ⌊pos / spt⌋ = 0 := by
        rw [Int.floor_eq_zero_iff]
        constructor
        · positivity
        · exact (div_lt_one hspt).mpr (lt_of_not_le hle)
      have hnot : ¬ (0 < spt ∧ spt ≤ pos) := by
        intro h; exact hle h.2
      simp [tickLoopFuel, hnot, hfloor0, hle]

/-- The fuel chosen by `advance_by` satisfies the side condition of
`tickLoopFuel_spec`. -/
theorem advance_fuel_sufficient (spt pos : ℚ) :
    Int.toNat ⌊pos / spt⌋ < Int.toNat ⌈pos / spt⌉ + 1 := by
  have h := Int.floor_le_ceil (pos / spt)
  omega

/-- Closed-form characterisation of a running clock's `advance_by`. -/
theorem advance_by_spec (c : TempoClock) (n : ℕ) (hrun : c.running = true)
    (hspt : 0 < c.samples_per_tick) (hpos : 0 ≤ c.sample_position) :
    c.advance_by n =
      ({ c with
          sample_position := c.sample_position + (n : ℚ) -
            (⌊(c.sample_position + (n : ℚ)) / c.samples_per_tick⌋ : ℚ) * c.samples_per_tick
          tick_counter := c.tick_counter +
            Int.toNat ⌊(c.sample_position + (n : ℚ)) / c.samples_per_tick⌋ },
        decide (c.samples_per_tick ≤ c.sample_position + (n : ℚ))) := by
  have hposn : (0 : ℚ) ≤ c.sample_position + (n : ℚ) := by positivity
  have hspec := tickLoopFuel_spec c.samples_per_tick hspt
    (Int.toNat ⌈(c.sample_position + (n : ℚ)) / c.samples_per_tick⌉ + 1)
    (c.sample_position + (n : ℚ)) c.tick_counter false hposn
    (advance_fuel_sufficient _ _)
  unfold TempoClock.advance_by
  rw [if_neg (by simp [hrun])]
  simp only [hspec, Bool.false_or]

/-- `advance_by` changes only `sample_position` and `tick_counter`, so
resetting afterwards is the same as resetting the original clock. -/
theorem advance_by_reset (c : TempoClock) (n : ℕ) :
    ((c.advance_by n).1).reset = c.reset := by
  unfold TempoClock.advance_by
  split
  · rfl
  · rfl

/-- `advance_by` preserves `samples_per_tick`. -/
theorem advance_by_samples_per_tick (c : TempoClock) (n : ℕ) :
    ((c.advance_by n).1).samples_per_tick = c.samples_per_tick := by
  unfold TempoClock.advance_by
  split
  · rfl
  · rfl

/-- `advance_by` preserves `running`. -/
theorem advance_by_running (c : TempoClock) (n : ℕ) :
    ((c.advance_by n).1).running = c.running := by
  unfold TempoClock.advance_by
  split
  · rfl
  · rfl

/-- Promotion touches only the pending and active lists. -/
theorem promote_pending_fields (s : Scheduler) :
    s.promote_pending.current_frame = s.current_frame ∧
    s.promote_pending.transport_state = s.transport_state ∧
    s.promote_pending.tempo_clock = s.tempo_clock ∧
    s.promote_pending.looping_enabled = s.looping_enabled ∧
    s.promote_pending.loop_start_frame = s.loop_start_frame ∧
    s.promote_pending.loop_end_frame = s.loop_end_frame := by
  exact ⟨rfl, rfl, rfl, rfl, rfl, rfl⟩

/-- Mixing touches only the active-track list (besides producing output). -/
theorem mix_active_fields (ep : EPShape) (s : Scheduler) (n : ℕ) :
    (s.mix_active ep n).1.current_frame = s.current_frame ∧
    (s.mix_active ep n).1.transport_state = s.transport_state ∧
    (s.mix_active ep n).1.tempo_clock = s.tempo_clock ∧
    (s.mix_active ep n).1.looping_enabled = s.looping_enabled ∧
    (s.mix_active ep n).1.loop_start_frame = s.loop_start_frame ∧
    (s.mix_active ep n).1.loop_end_frame = s.loop_end_frame := by
  exact ⟨rfl, rfl, rfl, rfl, rfl, rfl⟩

/-- The advancement stage adds `frame_size` to `current_frame` and advances
only the clock besides. -/
theorem advance_clock_and_frame_fields (s : Scheduler) (n : ℕ) :
    (s.advance_clock_and_frame n).current_frame = s.current_frame + n ∧
    (s.advance_clock_and_frame n).transport_state = s.transport_state ∧
    (s.advance_clock_and_frame n).tempo_clock = (s.tempo_clock.advance_by n).1 ∧
    (s.advance_clock_and_frame n).looping_enabled = s.looping_enabled ∧
    (s.advance_clock_and_frame n).loop_start_frame = s.loop_start_frame ∧
    (s.advance_clock_and_frame n).loop_end_frame = s.loop_end_frame := by
  exact ⟨rfl, rfl, rfl, rfl, rfl, rfl⟩

/-- The loop-wrap stage: `current_frame` rewinds to `loop_start_frame`
exactly when looping is enabled and the loop end has been reached. -/
theorem wrap_loop_current_frame (s : Scheduler) :
    s.wrap_loop.current_frame =
      if s.looping_enabled = true ∧ s.loop_end_frame ≤ s.current_frame
      then s.loop_start_frame else s.current_frame := by
  unfold Scheduler.wrap_loop
  split
  · rfl
  · rfl

/-- The loop-wrap stage's effect on the tempo clock. -/
theorem wrap_loop_tempo_clock (s : Scheduler) :
    s.wrap_loop.tempo_clock =
      if s.looping_enabled = true ∧ s.loop_end_frame ≤ s.current_frame
      then ((s.tempo_clock.reset).advance_by s.loop_start_frame).1
      else s.tempo_clock := by
  unfold Scheduler.wrap_loop
  split
  · rfl
  · rfl

/-- Unfolding of a Playing `next_samples` with an empty command queue into its
stages. -/
theorem next_samples_playing (ep : EPShape) (s : Scheduler) (n : ℕ)
    (h : s.transport_state = .Playing) :
    s.next_samples ep [] n =
      (((s.promote_pending.mix_active ep n).1.advance_clock_and_frame n).wrap_loop,
        (s.promote_pending.mix_active ep n).2) := by
  unfold Scheduler.next_samples Scheduler.drain
  simp [h]

/-! ## Claims -/

/-- Claim C1, counterexample: processing `Stop` does *not* empty the pending
heap.  With one track pending at frame 5, the claimed post-state (which
includes an empty pending heap) is false. -/
theorem C1_stop_counterexample :
    ¬ ((schedPending.process_command .Stop).transport_state = .Stopped ∧
       (schedPending.process_command .Stop).current_frame = 0 ∧
       (schedPending.process_command .Stop).tempo_clock.tick_counter = 0 ∧
       (schedPending.process_command .Stop).tempo_clock.sample_position = 0 ∧
       (schedPending.process_command .Stop).active_tracks = [] ∧
       (schedPending.process_command .Stop).scheduled = []) := by
  intro h
  have hsched := h.2.2.2.2.2
  have : ({ track := constOne, start_frame := 5 } : ScheduledTrack) :: [] = [] := hsched
  exact List.cons_ne_nil _ _ this

/-- Claim C1, amended: after the scheduler processes a `Stop` command, the
transport state is Stopped, `current_frame` is zero, the tempo clock's
`tick_counter` and `sample_position` are zero, and the active track list is
empty; the pending heap of scheduled tracks is left unchanged (it is not
cleared). -/
theorem C1_stop_resets_transport (s : Scheduler) :
    (s.process_command .Stop).transport_state = .Stopped ∧
    (s.process_command .Stop).current_frame = 0 ∧
    (s.process_command .Stop).tempo_clock.tick_counter = 0 ∧
    (s.process_command .Stop).tempo_clock.sample_position = 0 ∧
    (s.process_command .Stop).active_tracks = [] ∧
    (s.process_command .Stop).scheduled = s.scheduled := by
  exact ⟨rfl, rfl, rfl, rfl, rfl, rfl⟩

/-- Claim C2 (code bug): mixing is *not* commutative in the arrival order of
two `ScheduleTrack` commands with equal `start_frame`.  The scheduler reuses
one scratch buffer across the active tracks of a fill without clearing it,
while `AudioTrack::fill_next_samples` adds into (rather than overwrites) the
buffer; so a `ConstantTrack(1,1)` mixed before a clip-less `AudioTrack`
yields `(2,2)` while the opposite order yields `(1,1)` — a divergence far
beyond float-associativity tolerance (values here are exact rationals). -/
theorem C2_mix_order_observable :
    (schedAB.next_samples epZero [] 1).2 = [(2, 2)] ∧
    (schedBA.next_samples epZero [] 1).2 = [(1, 1)] ∧
    (schedAB.next_samples epZero [] 1).2 ≠ (schedBA.next_samples epZero [] 1).2 := by
  have hAB : (schedAB.next_samples epZero [] 1).2 = [(2, 2)] := by
    norm_num [Scheduler.next_samples, Scheduler.drain, schedAB, playingSched, Scheduler.new,
      Scheduler.promote_pending, promoteLoop, heapPush, Scheduler.mix_active, mixLoop,
      Track.fill_next_samples, constOne, emptyAudio, emptyTimeline, TimelineTrack.render_audio,
      addPair, Scheduler.advance_clock_and_frame, Scheduler.wrap_loop, clk44,
      TempoClock.new, TempoClock.with_signature, TempoClock.advance_by,
      TempoClock.compute_samples_per_tick, tickLoopFuel, TickResolution.ticks_per_beat,
      List.zipWith, List.replicate]
  have hBA : (schedBA.next_samples epZero [] 1).2 = [(1, 1)] := by
    norm_num [Scheduler.next_samples, Scheduler.drain, schedBA, playingSched, Scheduler.new,
      Scheduler.promote_pending, promoteLoop, heapPush, Scheduler.mix_active, mixLoop,
      Track.fill_next_samples, constOne, emptyAudio, emptyTimeline, TimelineTrack.render_audio,
      addPair, Scheduler.advance_clock_and_frame, Scheduler.wrap_loop, clk44,
      TempoClock.new, TempoClock.with_signature, TempoClock.advance_by,
      TempoClock.compute_samples_per_tick, tickLoopFuel, TickResolution.ticks_per_beat,
      List.zipWith, List.replicate]
  refine ⟨hAB, hBA, ?_⟩
  rw [hAB, hBA]
  intro h
  simp only [List.cons.injEq, and_true, Prod.mk.injEq] at h
  exact absurd h.1 (by norm_num)

/-- Claim C3: with the transport not Playing and no pending commands, a fill
returns exact silence and changes nothing: `current_frame`, the tempo clock's
`tick_counter`, and the active track list are all unchanged (in fact the
whole scheduler state is). -/
theorem C3_non_playing_fill_is_silent (ep : EPShape) (s : Scheduler) (n : ℕ)
    (h : s.transport_state ≠ .Playing) :
    (s.next_samples ep [] n).2 = List.replicate n (0, 0) ∧
    (s.next_samples ep [] n).1 = s := by
  unfold Scheduler.next_samples Scheduler.drain
  simp [h]

/-- Witness for C3 at a stopped scheduler and `frame_count = 2`. -/
theorem C3_witness :
    schedStopped.transport_state ≠ TransportState.Playing ∧
    (schedStopped.next_samples epZero [] 2).2 = [(0, 0), (0, 0)] ∧
    (schedStopped.next_samples epZero [] 2).1 = schedStopped := by
  have h := C3_non_playing_fill_is_silent epZero schedStopped 2 (by decide)
  exact ⟨by decide, h.1, h.2⟩

/-- Claim C4, counterexample: with looping enabled, a fill that reaches the
loop end does *not* leave `current_frame` at its old value plus
`frame_count`, and `current_frame` decreases (from 5 to 0). -/
theorem C4_counterexample :
    (schedMidLoop.next_samples epZero [] 5).1.current_frame = 0 ∧
    ¬ ((schedMidLoop.next_samples epZero [] 5).1.current_frame =
        schedMidLoop.current_frame + 5) ∧
    (schedMidLoop.next_samples epZero [] 5).1.current_frame <
      schedMidLoop.current_frame := by
  rw [next_samples_playing epZero schedMidLoop 5 rfl]
  refine ⟨by decide, by decide, by decide⟩

/-- Claim C4, amended: while Playing (with no pending commands),
`current_frame` after a fill equals `current_frame + frame_count`, *except*
when looping is enabled and that sum reaches `loop_end_frame`, in which case
it is rewound to `loop_start_frame`. -/
theorem C4_frame_advance_amended (ep : EPShape) (s : Scheduler) (n : ℕ)
    (h : s.transport_state = .Playing) :
    (s.next_samples ep [] n).1.current_frame =
      if s.looping_enabled = true ∧ s.loop_end_frame ≤ s.current_frame + n
      then s.loop_start_frame else s.current_frame + n := by
  rw [next_samples_playing ep s n h, wrap_loop_current_frame]
  rfl

/-- Witness for C4 (amended) at a playing, non-looping scheduler with
`frame_count = 3`. -/
theorem C4_witness :
    playingSched.transport_state = TransportState.Playing ∧
    (playingSched.next_samples epZero [] 3).1.current_frame = 3 := by
  have h := C4_frame_advance_amended epZero playingSched 3 rfl
  refine ⟨rfl, ?_⟩
  rw [h]
  decide

/-- Claim C5: while Playing with looping enabled, if advancing makes
`current_frame` reach `loop_end_frame`, then afterwards `current_frame`
equals `loop_start_frame` and the tempo clock equals the reset clock
re-advanced by `loop_start_frame` samples, whose `tick_counter` is the tick
count corresponding to `loop_start_frame`. -/
theorem C5_loop_wrap (ep : EPShape) (s : Scheduler) (n : ℕ)
    (hplay : s.transport_state = .Playing)
    (hloop : s.looping_enabled = true)
    (hwrap : s.loop_end_frame ≤ s.current_frame + n)
    (hrun : s.tempo_clock.running = true)
    (hspt : 0 < s.tempo_clock.samples_per_tick) :
    (s.next_samples ep [] n).1.current_frame = s.loop_start_frame ∧
    (s.next_samples ep [] n).1.tempo_clock =
      ((s.tempo_clock.reset).advance_by s.loop_start_frame).1 ∧
    (s.next_samples ep [] n).1.tempo_clock.tick_counter =
      Int.toNat ⌊(s.loop_start_frame : ℚ) / s.tempo_clock.samples_per_tick⌋ := by
  rw [next_samples_playing ep s n hplay]
  have hcond :
      ((s.promote_pending.mix_active ep n).1.advance_clock_and_frame n).looping_enabled = true ∧
      ((s.promote_pending.mix_active ep n).1.advance_clock_and_frame n).loop_end_frame ≤
        ((s.promote_pending.mix_active ep n).1.advance_clock_and_frame n).current_frame := by
    exact ⟨hloop, hwrap⟩
  have hreset :
      ((s.promote_pending.mix_active ep n).1.advance_clock_and_frame
          n).tempo_clock.reset = s.tempo_clock.reset :=
    advance_by_reset s.tempo_clock n
  have hclock :
      (((s.promote_pending.mix_active ep n).1.advance_clock_and_frame n).wrap_loop).tempo_clock =
        ((s.tempo_clock.reset).advance_by s.loop_start_frame).1 := by
    rw [wrap_loop_tempo_clock, if_pos hcond, hreset]
    rfl
  refine ⟨?_, hclock, ?_⟩
  · rw [wrap_loop_current_frame, if_pos hcond]
    rfl
  · rw [hclock]
    have hrun' : (s.tempo_clock.reset).running = true := hrun
    have hspt' : 0 < (s.tempo_clock.reset).samples_per_tick := hspt
    have hpos' : (0 : ℚ) ≤ (s.tempo_clock.reset).sample_position := le_refl 0
    have hs := advance_by_spec (s.tempo_clock.reset) s.loop_start_frame hrun' hspt' hpos'
    rw [hs]
    show (0 : ℕ) + Int.toNat ⌊((0 : ℚ) + (s.loop_start_frame : ℚ)) / s.tempo_clock.samples_per_tick⌋ = _
    rw [Nat.zero_add, zero_add]

/-- Witness for C5: loop region `[0, 10)`, fill of 10 frames from frame 0. -/
theorem C5_witness :
    schedAtLoopStart.transport_state = TransportState.Playing ∧
    schedAtLoopStart.looping_enabled = true ∧
    schedAtLoopStart.loop_end_frame ≤ schedAtLoopStart.current_frame + 10 ∧
    schedAtLoopStart.tempo_clock.running = true ∧
    0 < schedAtLoopStart.tempo_clock.samples_per_tick ∧
    (schedAtLoopStart.next_samples epZero [] 10).1.current_frame = 0 ∧
    (schedAtLoopStart.next_samples epZero [] 10).1.tempo_clock.tick_counter = 0 := by
  have hspt : 0 < schedAtLoopStart.tempo_clock.samples_per_tick := by
    norm_num [schedAtLoopStart, playingSched, Scheduler.new, clk44, TempoClock.new,
      TempoClock.with_signature, TempoClock.compute_samples_per_tick,
      TickResolution.ticks_per_beat]
  have h := C5_loop_wrap epZero schedAtLoopStart 10 rfl rfl (by decide) rfl hspt
  refine ⟨rfl, rfl, by decide, rfl, hspt, h.1, ?_⟩
  rw [h.2.2]
  show Int.toNat ⌊((0 : ℕ) : ℚ) / schedAtLoopStart.tempo_clock.samples_per_tick⌋ = 0
  norm_num

/-- The source's bar-major tick formula agrees with the spec's
`ticks_per_bar`-based formula. -/
theorem bbt_to_tick_count_eq_spec (s : Scheduler) (lp : LoopPoints) (isStart : Bool) :
    s.bbt_to_tick_count lp isStart =
      spec_bbt_total_ticks s.tempo_clock.ticks_per_beat
        s.tempo_clock.time_signature.beats_per_bar
        (if isStart then { bar := lp.start_bar, beat := lp.start_beat, tick := lp.start_tick }
         else { bar := lp.end_bar, beat := lp.end_beat, tick := lp.end_tick }) := by
  cases isStart with
  | false =>
    show (lp.end_bar - 1) * s.tempo_clock.time_signature.beats_per_bar *
          s.tempo_clock.ticks_per_beat +
        (lp.end_beat - 1) * s.tempo_clock.ticks_per_beat + (lp.end_tick - 1) =
      (lp.end_bar - 1) *
          (s.tempo_clock.ticks_per_beat * s.tempo_clock.time_signature.beats_per_bar) +
        (lp.end_beat - 1) * s.tempo_clock.ticks_per_beat + (lp.end_tick - 1)
    ring
  | true =>
    show (lp.start_bar - 1) * s.tempo_clock.time_signature.beats_per_bar *
          s.tempo_clock.ticks_per_beat +
        (lp.start_beat - 1) * s.tempo_clock.ticks_per_beat + (lp.start_tick - 1) =
      (lp.start_bar - 1) *
          (s.tempo_clock.ticks_per_beat * s.tempo_clock.time_signature.beats_per_bar) +
        (lp.start_beat - 1) * s.tempo_clock.ticks_per_beat + (lp.start_tick - 1)
    ring

/-- Claim C6: an enabled `SetLoop` stores loop frames computed as
`round(total_ticks * samples_per_tick)` from the spec's 1-based BBT formula
`(bar-1)*ticks_per_bar + (beat-1)*ticks_per_beat + (tick-1)`, and a disabled
`SetLoop` clears the stored loop region. -/
theorem C6_set_loop_conversion (s : Scheduler) (startOpts stopOpts : LoopOptions)
    (_hb1 : 1 ≤ startOpts.bar) (_hb2 : 1 ≤ startOpts.beat) (_hb3 : 1 ≤ startOpts.tick)
    (_he1 : 1 ≤ stopOpts.bar) (_he2 : 1 ≤ stopOpts.beat) (_he3 : 1 ≤ stopOpts.tick) :
    ((s.process_command (.SetLoop true startOpts stopOpts)).looping_enabled = true ∧
     (s.process_command (.SetLoop true startOpts stopOpts)).loop_points ≠ none ∧
     (s.process_command (.SetLoop true startOpts stopOpts)).loop_start_frame =
       Int.toNat (round ((spec_bbt_total_ticks s.tempo_clock.ticks_per_beat
         s.tempo_clock.time_signature.beats_per_bar startOpts : ℚ) *
         s.tempo_clock.samples_per_tick)) ∧
     (s.process_command (.SetLoop true startOpts stopOpts)).loop_end_frame =
       Int.toNat (round ((spec_bbt_total_ticks s.tempo_clock.ticks_per_beat
         s.tempo_clock.time_signature.beats_per_bar stopOpts : ℚ) *
         s.tempo_clock.samples_per_tick))) ∧
    ((s.process_command (.SetLoop false startOpts stopOpts)).looping_enabled = false ∧
     (s.process_command (.SetLoop false startOpts stopOpts)).loop_points = none) := by
  refine ⟨⟨rfl, ?_, ?_, ?_⟩, rfl, rfl⟩
  · intro h
    exact Option.noConfusion h
  · show Int.toNat (round ((Scheduler.bbt_to_tick_count _ _ true : ℚ) *
      s.tempo_clock.samples_per_tick)) = _
    rw [bbt_to_tick_count_eq_spec]
    rfl
  · show Int.toNat (round ((Scheduler.bbt_to_tick_count _ _ false : ℚ) *
      s.tempo_clock.samples_per_tick)) = _
    rw [bbt_to_tick_count_eq_spec]
    rfl

/-- Witness for C6 at the spec's loop scenario `1.1.1 → 1.2.1` on the
120 BPM / 44.1 kHz / Sixteenth clock: `end_frame = round(120·183.75) = 22050`. -/
theorem C6_witness :
    1 ≤ loopStartOpt.bar ∧ 1 ≤ loopStartOpt.beat ∧ 1 ≤ loopStartOpt.tick ∧
    1 ≤ loopEndOpt.bar ∧ 1 ≤ loopEndOpt.beat ∧ 1 ≤ loopEndOpt.tick ∧
    (playingSched.process_command (.SetLoop true loopStartOpt loopEndOpt)).loop_start_frame = 0 ∧
    (playingSched.process_command (.SetLoop true loopStartOpt loopEndOpt)).loop_end_frame =
      22050 := by
  have h := (C6_set_loop_conversion playingSched loopStartOpt loopEndOpt
    (by decide) (by decide) (by decide) (by decide) (by decide) (by decide)).1
  refine ⟨by decide, by decide, by decide, by decide, by decide, by decide, ?_, ?_⟩
  · rw [h.2.2.1]
    norm_num [spec_bbt_total_ticks, loopStartOpt, playingSched, Scheduler.new, clk44,
      TempoClock.new, TempoClock.with_signature, TempoClock.compute_samples_per_tick,
      TickResolution.ticks_per_beat, round_eq]
  · rw [h.2.2.2]
    norm_num [spec_bbt_total_ticks, loopEndOpt, playingSched, Scheduler.new, clk44,
      TempoClock.new, TempoClock.with_signature, TempoClock.compute_samples_per_tick,
      TickResolution.ticks_per_beat, round_eq]
    rfl

/-- Claim C7: `advance_by` on a stopped clock changes nothing and returns
false; on a running clock it adds `n` to `sample_position` and then emits one
tick per `samples_per_tick` contained in it (leaving a remainder in
`[0, samples_per_tick)`), returning true exactly when at least one tick was
emitted (equivalently, when `tick_counter` strictly increased). -/
theorem C7_advance_by_spec (c : TempoClock) (n : ℕ)
    (hspt : 0 < c.samples_per_tick) (hpos : 0 ≤ c.sample_position) :
    (c.running = false → c.advance_by n = (c, false)) ∧
    (c.running = true →
      ((c.advance_by n).1.sample_position =
          c.sample_position + (n : ℚ) -
            (⌊(c.sample_position + (n : ℚ)) / c.samples_per_tick⌋ : ℚ) *
              c.samples_per_tick ∧
       (c.advance_by n).1.tick_counter =
          c.tick_counter +
            Int.toNat ⌊(c.sample_position + (n : ℚ)) / c.samples_per_tick⌋ ∧
       0 ≤ (c.advance_by n).1.sample_position ∧
       (c.advance_by n).1.sample_position < c.samples_per_tick ∧
       ((c.advance_by n).2 = true ↔
          c.samples_per_tick ≤ c.sample_position + (n : ℚ)) ∧
       ((c.advance_by n).2 = true ↔
          c.tick_counter < (c.advance_by n).1.tick_counter))) := by
  constructor
  · intro h
    unfold TempoClock.advance_by
    rw [if_pos h]
  · intro hrun
    have hs := advance_by_spec c n hrun hspt hpos
    have hposn : (0 : ℚ) ≤ c.sample_position + (n : ℚ) := by positivity
    have hfract : c.sample_position + (n : ℚ) -
        (⌊(c.sample_position + (n : ℚ)) / c.samples_per_tick⌋ : ℚ) * c.samples_per_tick =
        c.samples_per_tick * Int.fract ((c.sample_position + (n : ℚ)) / c.samples_per_tick) := by
      rw [Int.fract]
      field_simp
      ring
    have hlow : (0 : ℚ) ≤ c.sample_position + (n : ℚ) -
        (⌊(c.sample_position + (n : ℚ)) / c.samples_per_tick⌋ : ℚ) * c.samples_per_tick := by
      rw [hfract]
      exact mul_nonneg (le_of_lt hspt) (Int.fract_nonneg _)
    have hhigh : c.sample_position + (n : ℚ) -
        (⌊(c.sample_position + (n : ℚ)) / c.samples_per_tick⌋ : ℚ) * c.samples_per_tick <
        c.samples_per_tick := by
      rw [hfract]
      calc c.samples_per_tick * Int.fract ((c.sample_position + (n : ℚ)) / c.samples_per_tick)
          < c.samples_per_tick * 1 :=
            (mul_lt_mul_left hspt).mpr (Int.fract_lt_one _)
        _ = c.samples_per_tick := mul_one _
    have hfloor_iff : c.samples_per_tick ≤ c.sample_position + (n : ℚ) ↔
        1 ≤ ⌊(c.sample_position + (n : ℚ)) / c.samples_per_tick⌋ := by
      rw [Int.le_floor]
      push_cast
      rw [le_div_iff₀ hspt, one_mul]
    refine ⟨?_, ?_, ?_, ?_, ?_, ?_⟩
    · rw [hs]
    · rw [hs]
    · rw [hs]; exact hlow
    · rw [hs]; exact hhigh
    · rw [hs]
      simp only [decide_eq_true_eq]
    · rw [hs]
      simp only [decide_eq_true_eq]
      rw [hfloor_iff]
      omega

/-- Witness for C7: `samples_per_tick = 4`, advance by 9 frames: two ticks,
remainder 1, emitted. -/
theorem C7_witness :
    0 < clkPPQN.samples_per_tick ∧ (0 : ℚ) ≤ clkPPQN.sample_position ∧
    clkPPQN.running = true ∧
    (clkPPQN.advance_by 9).1.tick_counter = 2 ∧
    (clkPPQN.advance_by 9).1.sample_position = 1 ∧
    (clkPPQN.advance_by 9).2 = true := by
  have hsptv : clkPPQN.samples_per_tick = 4 := by
    norm_num [clkPPQN, TempoClock.new, TempoClock.with_signature,
      TempoClock.compute_samples_per_tick, TickResolution.ticks_per_beat]
  have hspt : 0 < clkPPQN.samples_per_tick := by rw [hsptv]; norm_num
  have h := (C7_advance_by_spec clkPPQN 9 hspt (le_refl 0)).2 rfl
  have hfloor : ⌊(clkPPQN.sample_position + ((9 : ℕ) : ℚ)) / clkPPQN.samples_per_tick⌋ = 2 := by
    rw [hsptv]
    show ⌊((0 : ℚ) + ((9 : ℕ) : ℚ)) / 4⌋ = 2
    norm_num
  refine ⟨hspt, le_refl 0, rfl, ?_, ?_, ?_⟩
  · rw [h.2.1, hfloor]
    show 0 + Int.toNat 2 = 2
    rfl
  · rw [h.1, hfloor, hsptv]
    show (0 : ℚ) + ((9 : ℕ) : ℚ) - ((2 : ℤ) : ℚ) * 4 = 1
    norm_num
  · apply h.2.2.2.2.1.mpr
    rw [hsptv]
    show (4 : ℚ) ≤ (0 : ℚ) + ((9 : ℕ) : ℚ)
    norm_num

/-- `clamp_fades` always restores the fade-length invariant. -/
theorem clamp_fades_le (c : Clip) :
    c.clamp_fades.fade_in.length_frames + c.clamp_fades.fade_out.length_frames ≤
      c.timing.duration_frames := by
  by_cases h : c.timing.duration_frames < c.fade_in.length_frames + c.fade_out.length_frames
  · by_cases h2 : 0 < c.fade_in.length_frames + c.fade_out.length_frames
    · unfold Clip.clamp_fades
      rw [if_pos h, if_pos h2]
      show Int.toNat ⌊(c.fade_in.length_frames : ℚ) *
          ((c.timing.duration_frames : ℚ) /
            ((c.fade_in.length_frames + c.fade_out.length_frames : ℕ) : ℚ))⌋ +
        (c.timing.duration_frames - Int.toNat ⌊(c.fade_in.length_frames : ℚ) *
          ((c.timing.duration_frames : ℚ) /
            ((c.fade_in.length_frames + c.fade_out.length_frames : ℕ) : ℚ))⌋) ≤
        c.timing.duration_frames
      have h2q : (0 : ℚ) < ((c.fade_in.length_frames + c.fade_out.length_frames : ℕ) : ℚ) := by
        exact_mod_cast h2
      have hfi_le : (c.fade_in.length_frames : ℚ) ≤
          ((c.fade_in.length_frames + c.fade_out.length_frames : ℕ) : ℚ) := by
        exact_mod_cast Nat.le_add_right _ _
      have hx : (c.fade_in.length_frames : ℚ) *
          ((c.timing.duration_frames : ℚ) /
            ((c.fade_in.length_frames + c.fade_out.length_frames : ℕ) : ℚ)) ≤
          (c.timing.duration_frames : ℚ) := by
        calc (c.fade_in.length_frames : ℚ) *
            ((c.timing.duration_frames : ℚ) /
              ((c.fade_in.length_frames + c.fade_out.length_frames : ℕ) : ℚ))
            = (c.timing.duration_frames : ℚ) *
              ((c.fade_in.length_frames : ℚ) /
                ((c.fade_in.length_frames + c.fade_out.length_frames : ℕ) : ℚ)) := by ring
          _ ≤ (c.timing.duration_frames : ℚ) * 1 := by
              exact mul_le_mul_of_nonneg_left ((div_le_one h2q).mpr hfi_le)
                (Nat.cast_nonneg _)
          _ = (c.timing.duration_frames : ℚ) := mul_one _
      have hfl : ⌊(c.fade_in.length_frames : ℚ) *
          ((c.timing.duration_frames : ℚ) /
            ((c.fade_in.length_frames + c.fade_out.length_frames : ℕ) : ℚ))⌋ ≤
          (c.timing.duration_frames : ℤ) := by
        calc ⌊(c.fade_in.length_frames : ℚ) *
            ((c.timing.duration_frames : ℚ) /
              ((c.fade_in.length_frames + c.fade_out.length_frames : ℕ) : ℚ))⌋
            ≤ ⌊(c.timing.duration_frames : ℚ)⌋ := Int.floor_le_floor hx
          _ = (c.timing.duration_frames : ℤ) := Int.floor_natCast _
      omega
    · unfold Clip.clamp_fades
      rw [if_pos h, if_neg h2]
      show 0 + 0 ≤ c.timing.duration_frames
      omega
  · unfold Clip.clamp_fades
    rw [if_neg h]
    omega

/-- Claim C8: after any `set_fade_in` or `set_fade_out`,
`fade_in.length_frames + fade_out.length_frames ≤ duration_frames`; on a
violating `set_fade_in` request the stored fade-in is the floored
proportional rescale `⌊n·duration/total⌋` and the fade-out is the remainder
`duration - fade_in`. -/
theorem C8_fade_clamp_invariant (c : Clip) (n : ℕ) (curve : FadeCurve) :
    (c.set_fade_in n curve).fade_in.length_frames +
      (c.set_fade_in n curve).fade_out.length_frames ≤ c.timing.duration_frames ∧
    (c.set_fade_out n curve).fade_in.length_frames +
      (c.set_fade_out n curve).fade_out.length_frames ≤ c.timing.duration_frames ∧
    (c.timing.duration_frames < n + c.fade_out.length_frames →
      (c.set_fade_in n curve).fade_in.length_frames =
        Int.toNat ⌊((n : ℚ) * (c.timing.duration_frames : ℚ)) /
          ((n + c.fade_out.length_frames : ℕ) : ℚ)⌋ ∧
      (c.set_fade_in n curve).fade_out.length_frames =
        c.timing.duration_frames - (c.set_fade_in n curve).fade_in.length_frames) := by
  refine ⟨clamp_fades_le _, clamp_fades_le _, ?_⟩
  intro hviol
  have h1 : ({ c with fade_in := { length_frames := n, curve := curve } } : Clip).timing.duration_frames <
      ({ c with fade_in := { length_frames := n, curve := curve } } : Clip).fade_in.length_frames +
      ({ c with fade_in := { length_frames := n, curve := curve } } : Clip).fade_out.length_frames :=
    hviol
  have h2 : 0 < ({ c with fade_in := { length_frames := n, curve := curve } } : Clip).fade_in.length_frames +
      ({ c with fade_in := { length_frames := n, curve := curve } } : Clip).fade_out.length_frames := by
    show 0 < n + c.fade_out.length_frames
    omega
  have hif : c.set_fade_in n curve =
      { c with
        fade_in := { length_frames := Int.toNat ⌊(n : ℚ) *
            ((c.timing.duration_frames : ℚ) /
              ((n + c.fade_out.length_frames : ℕ) : ℚ))⌋, curve := curve }
        fade_out := { c.fade_out with
          length_frames := c.timing.duration_frames - Int.toNat ⌊(n : ℚ) *
            ((c.timing.duration_frames : ℚ) /
              ((n + c.fade_out.length_frames : ℕ) : ℚ))⌋ } } := by
    unfold Clip.set_fade_in Clip.clamp_fades
    rw [if_pos h1, if_pos h2]
  constructor
  · rw [hif]
    show Int.toNat ⌊(n : ℚ) * ((c.timing.duration_frames : ℚ) /
        ((n + c.fade_out.length_frames : ℕ) : ℚ))⌋ = _
    rw [mul_div_assoc]
  · rw [hif]

/-- Witness for C8: duration 100, existing fade-out 80, requesting fade-in 80
rescales to `⌊80·100/160⌋ = 50` and fade-out `100 - 50 = 50`. -/
theorem C8_witness :
    clipFadeOut80.timing.duration_frames <
      80 + clipFadeOut80.fade_out.length_frames ∧
    (clipFadeOut80.set_fade_in 80 .Linear).fade_in.length_frames = 50 ∧
    (clipFadeOut80.set_fade_in 80 .Linear).fade_out.length_frames = 50 ∧
    (clipFadeOut80.set_fade_in 80 .Linear).fade_in.length_frames +
      (clipFadeOut80.set_fade_in 80 .Linear).fade_out.length_frames ≤
      clipFadeOut80.timing.duration_frames := by
  have hdur : clipFadeOut80.timing.duration_frames = 100 := rfl
  have hfo : clipFadeOut80.fade_out.length_frames = 80 := rfl
  have h := C8_fade_clamp_invariant clipFadeOut80 80 .Linear
  have hviol : clipFadeOut80.timing.duration_frames <
      80 + clipFadeOut80.fade_out.length_frames := by
    rw [hdur, hfo]
    norm_num
  have h3 := h.2.2 hviol
  have hfi : (clipFadeOut80.set_fade_in 80 .Linear).fade_in.length_frames = 50 := by
    rw [h3.1, hdur, hfo]
    norm_num
    rfl
  refine ⟨hviol, hfi, ?_, h.1⟩
  rw [h3.2, hfi, hdur]

/-- Positionwise description of a clip-render pass: slot `i` receives the
clip's contribution at global frame `start_frame + (i0 + i)` when inside the
render window. -/
theorem renderClipIntoBuffer_getElem (ep : EPShape) (clip : Clip) (sf n : ℕ) :
    ∀ (buf : List (ℚ × ℚ)) (i0 i : ℕ),
      (renderClipIntoBuffer ep clip sf n buf i0)[i]? =
        (buf[i]?).map (fun lr =>
          if i0 + i < n then addPair lr (clipContribution ep clip (sf + (i0 + i))) else lr) := by
  intro buf
  induction buf with
  | nil => intro i0 i; simp [renderClipIntoBuffer]
  | cons lr rest ih =>
    intro i0 i
    cases i with
    | zero => simp [renderClipIntoBuffer]
    | succ i =>
      simp only [renderClipIntoBuffer, List.getElem?_cons_succ]
      rw [ih (i0 + 1) i]
      have hidx : i0 + 1 + i = i0 + (i + 1) := by omega
      rw [hidx]

/-- Claim C9: a non-looping audio clip contributes nothing at any global
frame outside `[start_frame, start_frame + duration_frames)`: the per-frame
contribution is zero there, and a render pass leaves such buffer slots
untouched. -/
theorem C9_clip_silent_outside_window (ep : EPShape) (c : Clip) (ac : AudioClip)
    (hk : c.kind = .Audio ac) (hl : ac.looping = false) (g : ℕ)
    (hout : g < c.timing.start_frame ∨
      c.timing.start_frame + c.timing.duration_frames ≤ g) :
    clipContribution ep c g = (0, 0) ∧
    ∀ (sf n i : ℕ) (buf : List (ℚ × ℚ)), sf + i = g →
      (renderClipIntoBuffer ep c sf n buf 0)[i]? = buf[i]? := by
  have hcontrib : clipContribution ep c g = (0, 0) := by
    rcases hout with h | h
    · simp [clipContribution, hk, h]
    · have hnotlt : ¬ g < c.timing.start_frame := by omega
      simp [clipContribution, hk, hl, Clip.ends_at, hnotlt, h]
  refine ⟨hcontrib, ?_⟩
  intro sf n i buf hsum
  rw [renderClipIntoBuffer_getElem]
  have h0 : sf + (0 + i) = g := by omega
  rw [h0, hcontrib]
  cases hb : buf[i]? with
  | none => rfl
  | some a =>
    simp [addPair]

/-- Witness for C9: the 3-frame clip at frame 5 contributes nothing at
global frame 2, and rendering leaves the buffer slot unchanged. -/
theorem C9_witness :
    clipFuture.kind = ClipKind.Audio acFuture ∧
    acFuture.looping = false ∧
    (2 < clipFuture.timing.start_frame ∨
      clipFuture.timing.start_frame + clipFuture.timing.duration_frames ≤ 2) ∧
    clipContribution epZero clipFuture 2 = (0, 0) ∧
    (renderClipIntoBuffer epZero clipFuture 0 3 bufThree 0)[2]? = bufThree[2]? := by
  have h := C9_clip_silent_outside_window epZero clipFuture acFuture rfl rfl 2
    (Or.inl (by decide))
  exact ⟨rfl, rfl, Or.inl (by decide), h.1, h.2 0 3 2 bufThree rfl⟩

/-- Claim C10: the `GainPanTrack` wrapper scales the inner track's output by
`gain * (1 - clamp(pan,-1,1)) * 0.5` on the left and
`gain * (1 + clamp(pan,-1,1)) * 0.5` on the right; at centre pan and unit
gain it halves both channels, whereas the clip-level `apply_gain_pan` law
applies factor 1 at centre pan. -/
theorem C10_gainpan_law (ep : EPShape) (id : String) (inner : Track)
    (gain pan : ℚ) (buf : List (ℚ × ℚ)) :
    (∀ i : ℕ,
      ((Track.gainpan id inner gain pan).fill_next_samples ep buf).2[i]? =
        ((inner.fill_next_samples ep buf).2[i]?).map
          (fun lr => (gain * ((1 - clampQ pan (-1) 1) * (1 / 2)) * lr.1,
                      gain * ((1 + clampQ pan (-1) 1) * (1 / 2)) * lr.2))) ∧
    ((Track.gainpan id inner 1 0).fill_next_samples ep buf).2 =
      (inner.fill_next_samples ep buf).2.map
        (fun lr => ((1 / 2) * lr.1, (1 / 2) * lr.2)) ∧
    (∀ l r : ℚ, apply_gain_pan l r 1 0 = (l, r)) := by
  refine ⟨?_, ?_, ?_⟩
  · intro i
    show ((inner.fill_next_samples ep buf).2.map _)[i]? = _
    rw [List.getElem?_map]
    cases (inner.fill_next_samples ep buf).2[i]? with
    | none => rfl
    | some a =>
      simp only [Option.map_some']
      rw [Option.some.injEq, Prod.mk.injEq]
      constructor
      · ring
      · ring
  · show ((inner.fill_next_samples ep buf).2.map _) = _
    apply List.map_congr_left
    intro a _
    have hc : clampQ 0 (-1) 1 = 0 := by
      norm_num [clampQ]
    rw [Prod.mk.injEq]
    constructor
    · rw [hc]; ring
    · rw [hc]; ring
  · intro l r
    have hg : clampQ 1 0 4 = 1 := by norm_num [clampQ]
    have hp : clampQ 0 (-1) 1 = 0 := by norm_num [clampQ]
    unfold apply_gain_pan
    rw [hg, hp]
    norm_num

end FreqForm
